import Mathlib

/-!
Verification of the Injective Market Intelligence API data-acquisition core and
metrics engine, shallowly embedded from the TypeScript source.  JavaScript
numbers are modelled as real numbers, `Math.round` by the Mathlib `round`
(floor of `x + 1/2`, which matches the JavaScript half-up behaviour), machine
timestamps by `Int` milliseconds, and the mutable service objects by explicit
state records.
-/

namespace IMI

/-! ## Math utilities (src/utils/math.ts and src/utils/formatter.ts) -/

/-- clamp (math.ts): `Math.min(max, Math.max(min, value))`. -/
noncomputable def clamp (value mn mx : ℝ) : ℝ := min mx (max mn value)

/-- normalize (math.ts): linear rescale of `value` into `[0,1]`, returning 0
when `max ≤ min`. -/
noncomputable def normalize (value mn mx : ℝ) : ℝ :=
  if mx ≤ mn then 0 else clamp ((value - mn) / (mx - mn)) 0 1

/-- mean (math.ts). -/
noncomputable def mean (values : List ℝ) : ℝ :=
  if values = [] then 0 else values.sum / values.length

/-- stdDev (math.ts): population standard deviation, 0 on the empty list. -/
noncomputable def stdDev (values : List ℝ) : ℝ :=
  if values = [] then 0
  else Real.sqrt (mean (values.map (fun v => (v - mean values) ^ 2)))

/-- ewma (math.ts): exponentially weighted moving average seeded with the
first element, 0 on the empty list. -/
noncomputable def ewma (values : List ℝ) (lambda : ℝ) : ℝ :=
  match values with
  | [] => 0
  | v :: rest => rest.foldl (fun w x => lambda * w + (1 - lambda) * x) v

/-- round (formatter.ts): `Math.round(value * 10^decimals) / 10^decimals`. -/
noncomputable def roundTo (value : ℝ) (decimals : ℕ) : ℝ :=
  (round (value * 10 ^ decimals) : ℤ) / 10 ^ decimals

/-! ## Data model (src/types/market.ts) -/

/-- OrderbookLevel: a `[price, size]` pair. -/
abbrev OrderbookLevel := ℝ × ℝ

/-- Orderbook: bid and ask sides. -/
structure Orderbook where
  bids : List OrderbookLevel
  asks : List OrderbookLevel

/-- Trade: price, size and an ISO timestamp string. -/
structure Trade where
  price : ℝ
  size : ℝ
  timestamp : String

/-- LiquidityMetrics; `score` is the integer produced by `Math.round`. -/
structure LiquidityMetrics where
  spread_bps : ℝ
  depth_25bps : ℝ
  turnover : ℝ
  imbalance : ℝ
  score : ℤ

/-- VolatilityMetrics. -/
structure VolatilityMetrics where
  realized : ℝ
  ewma : ℝ
  trend : ℝ
  score : ℤ

/-- ActivityMetrics. -/
structure ActivityMetrics where
  volume_quote : ℝ
  trades : ℕ
  avg_trade_size : ℝ
  score : ℤ

/-- HealthMetrics. -/
structure HealthMetrics where
  score : ℤ

/-- Signal severity levels. -/
inductive SignalLevel where
  | info
  | warn
  | critical
deriving DecidableEq

/-- Signal: code, level and message. -/
structure Signal where
  code : String
  level : SignalLevel
  message : String
deriving DecidableEq

/-- The bundle handed to buildSignals. -/
structure MarketSummaryMetrics where
  liquidity : LiquidityMetrics
  volatility : VolatilityMetrics
  activity : ActivityMetrics
  health : HealthMetrics

/-! ## Metrics engine (src/services/metrics.service.ts)

The JavaScript guard `if (!bestBid || !bestAsk) return 0` reads the first
price of each side with `orderbook.bids[0]?.[0]`; the guard fires when a side
is empty (the optional access yields `undefined`) and also when the top price
is exactly 0, because 0 is falsy.  The embedding matches on `List.head?` and
then tests the two prices against 0. -/

/-- computeSpreadBps (metrics.service.ts lines 13-23). -/
noncomputable def computeSpreadBps (orderbook : Orderbook) : ℝ :=
  match orderbook.bids.head?, orderbook.asks.head? with
  | some bid0, some ask0 =>
    let bestBid := bid0.1
    let bestAsk := ask0.1
    if bestBid = 0 ∨ bestAsk = 0 then 0
    else
      let mid := (bestBid + bestAsk) / 2
      (bestAsk - bestBid) / mid * 10000
  | _, _ => 0

/-- computeDepthAtBps (metrics.service.ts lines 25-46). -/
noncomputable def computeDepthAtBps (orderbook : Orderbook) (bps : ℝ) : ℝ :=
  match orderbook.bids.head?, orderbook.asks.head? with
  | some bid0, some ask0 =>
    let bestBid := bid0.1
    let bestAsk := ask0.1
    if bestBid = 0 ∨ bestAsk = 0 then 0
    else
      let mid := (bestBid + bestAsk) / 2
      let bidFloor := mid * (1 - bps / 10000)
      let askCeil := mid * (1 + bps / 10000)
      let bidDepth := ((orderbook.bids.filter fun l => bidFloor ≤ l.1).map Prod.snd).sum
      let askDepth := ((orderbook.asks.filter fun l => l.1 ≤ askCeil).map Prod.snd).sum
      bidDepth + askDepth
  | _, _ => 0

/-- computeOrderbookImbalance (metrics.service.ts lines 48-73); the call sites
pass `bps = 25`, the source default. -/
noncomputable def computeOrderbookImbalance (orderbook : Orderbook) (bps : ℝ) : ℝ :=
  match orderbook.bids.head?, orderbook.asks.head? with
  | some bid0, some ask0 =>
    let bestBid := bid0.1
    let bestAsk := ask0.1
    if bestBid = 0 ∨ bestAsk = 0 then 0
    else
      let mid := (bestBid + bestAsk) / 2
      let bidFloor := mid * (1 - bps / 10000)
      let askCeil := mid * (1 + bps / 10000)
      let bidDepth := ((orderbook.bids.filter fun l => bidFloor ≤ l.1).map Prod.snd).sum
      let askDepth := ((orderbook.asks.filter fun l => l.1 ≤ askCeil).map Prod.snd).sum
      if bidDepth + askDepth = 0 then 0
      else (bidDepth - askDepth) / (bidDepth + askDepth)
  | _, _ => 0

/-- computeLiquidityMetrics (metrics.service.ts lines 75-98). -/
noncomputable def computeLiquidityMetrics (orderbook : Orderbook) (trades : List Trade) :
    LiquidityMetrics :=
  let spreadBps := computeSpreadBps orderbook
  let depth25 := computeDepthAtBps orderbook 25
  let imbalance := computeOrderbookImbalance orderbook 25
  let volume := (trades.map Trade.size).sum
  let turnover := if 0 < depth25 then volume / depth25 else 0
  let spreadScore := 1 - normalize spreadBps 5 50
  let depthScore := normalize depth25 5000 200000
  let turnoverScore := normalize turnover 0.05 1.2
  let imbalanceScore := 1 - |imbalance|
  let score := round (100 * clamp
    (0.35 * spreadScore + 0.35 * depthScore + 0.2 * turnoverScore + 0.1 * imbalanceScore) 0 1)
  ⟨roundTo spreadBps 2, roundTo depth25 2, roundTo turnover 4, roundTo imbalance 4, score⟩

/-- logReturns (metrics.service.ts lines 100-116): log-returns of consecutive
prices, skipping any adjacent pair where either price is non-positive. -/
noncomputable def logReturns (prices : List ℝ) : List ℝ :=
  if prices.length < 2 then []
  else (prices.zip prices.tail).filterMap fun p =>
    if p.1 ≤ 0 ∨ p.2 ≤ 0 then none else some (Real.log (p.2 / p.1))

/-- computeRealizedVol (metrics.service.ts lines 118-121). -/
noncomputable def computeRealizedVol (prices : List ℝ) : ℝ :=
  stdDev (logReturns prices)

/-- computeEwmaVol (metrics.service.ts lines 123-127); call sites use the
default `lambda = 0.94`. -/
noncomputable def computeEwmaVol (prices : List ℝ) (lambda : ℝ) : ℝ :=
  Real.sqrt (ewma ((logReturns prices).map fun v => v ^ 2) lambda)

/-- Baseline selection inside computeVolatilityMetrics (line 133):
`baselineVol ?? (realized > 0 ? realized * 0.8 : 0)`. -/
noncomputable def volBaseline (realized : ℝ) (baselineVol : Option ℝ) : ℝ :=
  baselineVol.getD (if 0 < realized then realized * 0.8 else 0)

/-- Trend selection inside computeVolatilityMetrics (line 134):
`baseline > 0 ? realized / baseline : 1`. -/
noncomputable def volTrend (realized baseline : ℝ) : ℝ :=
  if 0 < baseline then realized / baseline else 1

/-- computeVolatilityMetrics (metrics.service.ts lines 129-144). -/
noncomputable def computeVolatilityMetrics (trades : List Trade) (baselineVol : Option ℝ) :
    VolatilityMetrics :=
  let prices := trades.map Trade.price
  let realized := computeRealizedVol prices
  let ewmaVol := computeEwmaVol prices 0.94
  let baseline := volBaseline realized baselineVol
  let trend := volTrend realized baseline
  let score := round (100 * clamp (1 - normalize trend 1 3) 0 1)
  ⟨roundTo realized 6, roundTo ewmaVol 6, roundTo trend 4, score⟩

/-- computeActivityMetrics (metrics.service.ts lines 146-161). -/
noncomputable def computeActivityMetrics (trades : List Trade) : ActivityMetrics :=
  let volumeQuote := (trades.map fun t => t.price * t.size).sum
  let tradesCount := trades.length
  let avgTradeSize := if 0 < tradesCount then volumeQuote / tradesCount else 0
  let volumeScore := normalize volumeQuote 10000 5000000
  let tradeScore := normalize (tradesCount : ℝ) 10 2000
  let score := round (100 * clamp (0.6 * volumeScore + 0.4 * tradeScore) 0 1)
  ⟨roundTo volumeQuote 2, tradesCount, roundTo avgTradeSize 2, score⟩

/-- computeHealthMetrics (metrics.service.ts lines 163-170). -/
noncomputable def computeHealthMetrics (liquidity : LiquidityMetrics)
    (volatility : VolatilityMetrics) (activity : ActivityMetrics) : HealthMetrics :=
  ⟨round (0.45 * (liquidity.score : ℝ) + 0.35 * (volatility.score : ℝ)
    + 0.2 * (activity.score : ℝ))⟩

/-- The info signal appended when no threshold rule fires. -/
def healthOkSignal : Signal :=
  ⟨"HEALTH_OK", .info, "No material degradation detected."⟩

/-- buildSignals (metrics.service.ts lines 172-229): threshold rules evaluated
in the fixed source order, each appending at most one signal; an info signal
is appended when nothing fired. -/
noncomputable def buildSignals (m : MarketSummaryMetrics) : List Signal :=
  let signals : List Signal := []
  let signals := if 25 < m.liquidity.spread_bps then
    signals ++ [⟨"LIQ_SPREAD_WIDE", .warn, "Spread above 25 bps."⟩] else signals
  let signals := if m.liquidity.depth_25bps < 20000 then
    signals ++ [⟨"LIQ_DEPTH_THIN", .warn, "Depth inside 25 bps is thin."⟩] else signals
  let signals := if 1.8 < m.volatility.trend then
    signals ++ [⟨"VOL_TREND_UP", .warn, "Volatility trending up vs baseline."⟩] else signals
  let signals := if m.activity.score < 30 then
    signals ++ [⟨"ACTIVITY_LOW", .warn, "Activity score below 30."⟩] else signals
  let signals := if m.health.score < 40 then
    signals ++ [⟨"HEALTH_DETERIORATING", .critical, "Market health score below 40."⟩] else signals
  if signals.length = 0 then signals ++ [healthOkSignal] else signals

/-- Declarative rule list, stated from the specification: the five threshold
rules in their fixed evaluation order, each with its firing condition. -/
noncomputable def signalRules (m : MarketSummaryMetrics) : List (Bool × Signal) :=
  [(decide (25 < m.liquidity.spread_bps),
     ⟨"LIQ_SPREAD_WIDE", .warn, "Spread above 25 bps."⟩),
   (decide (m.liquidity.depth_25bps < 20000),
     ⟨"LIQ_DEPTH_THIN", .warn, "Depth inside 25 bps is thin."⟩),
   (decide (1.8 < m.volatility.trend),
     ⟨"VOL_TREND_UP", .warn, "Volatility trending up vs baseline."⟩),
   (decide (m.activity.score < 30),
     ⟨"ACTIVITY_LOW", .warn, "Activity score below 30."⟩),
   (decide (m.health.score < 40),
     ⟨"HEALTH_DETERIORATING", .critical, "Market health score below 40."⟩)]

/-- Signals of the rules that fire, in rule order (specification reading). -/
noncomputable def firedSignals (m : MarketSummaryMetrics) : List Signal :=
  ((signalRules m).filter Prod.fst).map Prod.snd

/-! ## Generic association-list update

JavaScript `Map.set` overwrites the binding of a key; the association-list
embedding places the fresh binding in front and drops any older one. -/

/-- Overwrite the binding of `k` in an association list. -/
def updateAssoc {β : Type} (m : List (String × β)) (k : String) (v : β) :
    List (String × β) :=
  (k, v) :: m.filter fun p => p.1 ≠ k

/-! ## ResponseCache (src/services/cache.service.ts) -/

/-- CacheEntry: a stored value with its absolute expiry instant. -/
structure CacheEntry (α : Type) where
  value : α
  expiresAt : Int
deriving DecidableEq

/-- CacheService.get: miss when the key is absent; an entry whose expiry is
strictly in the past (`Date.now() > entry.expiresAt`) is deleted and reported
as a miss; otherwise the value is returned.  The result pairs the read value
with the store after the read. -/
def cacheGet {α : Type} (store : List (String × CacheEntry α)) (key : String)
    (now : Int) : Option α × List (String × CacheEntry α) :=
  match store.lookup key with
  | none => (none, store)
  | some entry =>
    if entry.expiresAt < now then (none, store.filter fun p => p.1 ≠ key)
    else (some entry.value, store)

/-- CacheService.set: store the value with expiry `now + ttlMs`. -/
def cacheSet {α : Type} (store : List (String × CacheEntry α)) (key : String)
    (value : α) (ttlMs : Int) (now : Int) : List (String × CacheEntry α) :=
  updateAssoc store key ⟨value, now + ttlMs⟩

/-! ## Rate limiter (InjectiveService.checkRateLimit, metrics.service.ts
lines 341-359) -/

/-- Rate-limiter state: endpoint label to recorded call timestamps (ms). -/
abbrev RateMap := List (String × List Int)

/-- The message of the rate-limit error thrown by checkRateLimit. -/
def rateLimitMsg (endpoint : String) (limit : ℕ) : String :=
  s!"Rate limit exceeded for {endpoint}. Max {limit} requests per minute."

/-- checkRateLimit: prune timestamps at or before `now - 60s`, fail when the
remaining count reaches the per-minute budget, otherwise record `now`.  The
tracker is returned on success; the thrown error carries no tracker update
(the source mutates the map only after the budget check passes). -/
def checkRateLimit (rate : RateMap) (endpoint : String) (now : Int)
    (limit : ℕ) : Except String RateMap :=
  let windowStart := now - 60 * 1000
  let rate0 := if (rate.lookup endpoint).isNone then updateAssoc rate endpoint [] else rate
  let timestamps := (rate0.lookup endpoint).getD []
  let recent := timestamps.filter fun ts => windowStart < ts
  if limit ≤ recent.length then .error (rateLimitMsg endpoint limit)
  else .ok (updateAssoc rate0 endpoint (recent ++ [now]))

/-- The timestamps of `endpoint` inside the trailing 60-second window. -/
def recentOf (rate : RateMap) (endpoint : String) (now : Int) : List Int :=
  ((rate.lookup endpoint).getD []).filter fun ts => now - 60 * 1000 < ts

/-- Issue `k` consecutive checkRateLimit calls at the same instant,
propagating the first failure (test harness for the budget property). -/
def repeatCalls (k : ℕ) (rate : RateMap) (endpoint : String) (now : Int)
    (limit : ℕ) : Except String RateMap :=
  match k with
  | 0 => .ok rate
  | Nat.succ k0 =>
    match checkRateLimit rate endpoint now limit with
    | .error e => .error e
    | .ok rate1 => repeatCalls k0 rate1 endpoint now limit

/-! ## Call-metrics recorder (src/services/api-metrics.service.ts) -/

/-- CallRecord: one recorded call outcome (latency fields elided; no claim
inspects them). -/
structure CallRecord where
  endpoint : String
  success : Bool
  statusCode : Option ℕ
  error : Option String
deriving DecidableEq

/-- ApiMetricsService.recordCall: append, keeping only the most recent 10000
entries (`this.metrics.slice(-this.maxMetrics)`). -/
def recordCall (hist : List CallRecord) (entry : CallRecord) : List CallRecord :=
  let m := hist ++ [entry]
  if 10000 < m.length then m.drop (m.length - 10000) else m

/-! ## UpstreamClient (InjectiveService, metrics.service.ts lines 317-608) -/

/-- MarketInfo (types/market.ts). -/
structure MarketInfo where
  id : String
  symbol : String
  base : String
  quote : String
deriving DecidableEq

/-- The values the shared response cache of the service can hold; the source
casts `unknown` to the expected type at each read, with key prefixes keeping
the variants apart. -/
inductive CachedValue where
  | markets (value : List MarketInfo)
  | orderbook (value : Orderbook)
  | trades (value : List Trade)

/-- An HTTP response as seen by the client (status plus status text). -/
structure Response where
  status : ℕ
  statusText : String
deriving DecidableEq

/-- response.ok per the fetch specification: status in 200-299. -/
def respOk (r : Response) : Bool := 200 ≤ r.status && r.status ≤ 299

/-- The outcome of one `fetch` attempt: a response, an abort fired by the
timeout, or a network error rejected with a message. -/
inductive FetchResult where
  | resp (r : Response)
  | abortError
  | netError (msg : String)

/-- Service configuration (config/env.ts fields used by the client). -/
structure Config where
  apiUrl : String
  timeoutMs : ℕ
  cacheTtlMs : Int
  rateLimitPerMinute : ℕ
  enableMetrics : Bool

/-- The full mutable state of one InjectiveService instance.  `net` is
instrumentation: the URLs for which a network call was actually issued. -/
structure SvcState where
  cache : List (String × CacheEntry CachedValue)
  rate : RateMap
  hist : List CallRecord
  net : List String

/-- Does `pat` occur as a contiguous run inside the character list? -/
def containsSub (pat : List Char) : List Char → Bool
  | [] => pat.isPrefixOf []
  | c :: rest => pat.isPrefixOf (c :: rest) || containsSub pat rest

/-- Substring test: JavaScript `String.prototype.includes` (the source
classifies caught error messages with it). -/
def strIncludes (s pat : String) : Bool := containsSub pat.data s.data

/-- fetchWithTimeout (lines 361-422): rate-limit check, then the network
attempt; every attempt outcome is recorded when metrics are enabled.  A
rate-limit failure is thrown before any network activity.  An abort is
re-thrown as the timeout message. -/
def fetchWithTimeout (cfg : Config) (st : SvcState) (url endpoint : String)
    (now : Int) (result : FetchResult) : Except String Response × SvcState :=
  match checkRateLimit st.rate endpoint now cfg.rateLimitPerMinute with
  | .error msg => (.error msg, st)
  | .ok rate1 =>
    let st := { st with rate := rate1, net := st.net ++ [url] }
    match result with
    | .resp r =>
      let sc := r.status
      let stx := r.statusText
      let st := if cfg.enableMetrics then
          { st with hist := (recordCall st.hist
            ⟨endpoint, respOk r, some r.status,
             if respOk r then none else some s!"{sc} {stx}"⟩) }
        else st
      (.ok r, st)
    | .abortError =>
      let tm := cfg.timeoutMs
      let st := if cfg.enableMetrics then
          { st with hist := (recordCall st.hist
            ⟨endpoint, false, none, some "This operation was aborted"⟩) }
        else st
      (.error s!"Request timeout after {tm}ms", st)
    | .netError msg =>
      let st := if cfg.enableMetrics then
          { st with hist := recordCall st.hist ⟨endpoint, false, none, some msg⟩ }
        else st
      (.error msg, st)

/-- The configured endpoint-path variants (lines 325-329). -/
def endpointVariants : String → List String
  | "markets" => ["/api/exchange/v1/markets", "/markets", "/api/v1/markets"]
  | "orderbook" => ["/api/exchange/v1/orderbooks", "/orderbook", "/api/v1/orderbook"]
  | "trades" => ["/api/exchange/v1/trades", "/trades", "/api/v1/trades"]
  | _ => []

/-- The loop body of tryEndpoints (lines 424-464).  A success returns; a 404
advances; any other non-success status raises `API error: ...` inside the
`try`, which the catch block of the same loop receives.  The catch classifies
the message by substring: timeout/fetch messages advance, rate-limit messages
abort, and every other message falls through the catch and the loop advances
to the next variant. -/
def tryEndpointsGo (cfg : Config) (behavior : String → FetchResult)
    (endpointType pathSuffix : String) (now : Int) :
    List String → Option String → SvcState → Except String Response × SvcState
  | [], lastError, st =>
    (.error (lastError.getD s!"All endpoint variants failed for {endpointType}"), st)
  | variant :: rest, lastError, st =>
    let url := cfg.apiUrl ++ variant ++ pathSuffix
    let endpoint := endpointType ++ pathSuffix
    match fetchWithTimeout cfg st url endpoint now (behavior url) with
    | (.ok r, st1) =>
      if respOk r then (.ok r, st1)
      else if r.status = 404 then
        tryEndpointsGo cfg behavior endpointType pathSuffix now rest lastError st1
      else
        let sc := r.status
        let stx := r.statusText
        let msg := s!"API error: {sc} {stx}"
        if strIncludes msg "timeout" || strIncludes msg "fetch" then
          tryEndpointsGo cfg behavior endpointType pathSuffix now rest (some msg) st1
        else if strIncludes msg "Rate limit" then (.error msg, st1)
        else tryEndpointsGo cfg behavior endpointType pathSuffix now rest (some msg) st1
    | (.error msg, st1) =>
      if strIncludes msg "timeout" || strIncludes msg "fetch" then
        tryEndpointsGo cfg behavior endpointType pathSuffix now rest (some msg) st1
      else if strIncludes msg "Rate limit" then (.error msg, st1)
      else tryEndpointsGo cfg behavior endpointType pathSuffix now rest (some msg) st1

/-- tryEndpoints: iterate the configured variants for a logical endpoint. -/
def tryEndpoints (cfg : Config) (behavior : String → FetchResult)
    (endpointType pathSuffix : String) (now : Int) (st : SvcState) :
    Except String Response × SvcState :=
  tryEndpointsGo cfg behavior endpointType pathSuffix now
    (endpointVariants endpointType) none st

/-- getMarkets (lines 472-506).  Body decoding and normalization
(`response.json()` and the symbol derivation) are abstracted into the
`parseMarkets` parameter; no claim inspects them. -/
def getMarkets (cfg : Config) (behavior : String → FetchResult)
    (parseMarkets : Response → List MarketInfo) (now : Int) (st : SvcState) :
    Except String CachedValue × SvcState :=
  match cacheGet st.cache "injective:markets" now with
  | (some v, cache1) => (.ok v, { st with cache := cache1 })
  | (none, cache1) =>
    let st := { st with cache := cache1 }
    match tryEndpoints cfg behavior "markets" "" now st with
    | (.error msg, st1) => (.error s!"Failed to fetch markets: {msg}", st1)
    | (.ok r, st1) =>
      let result := CachedValue.markets (parseMarkets r)
      (.ok result,
       { st1 with cache := cacheSet st1.cache "injective:markets" result cfg.cacheTtlMs now })

/-- getOrderbook (lines 517-555), with `response.json()` decoding, level
normalization and sorting abstracted into `parseOrderbook`
(`encodeURIComponent` is the identity on the market ids exercised here). -/
def getOrderbook (cfg : Config) (behavior : String → FetchResult)
    (parseOrderbook : Response → Orderbook) (marketId : String) (now : Int)
    (st : SvcState) : Except String CachedValue × SvcState :=
  match cacheGet st.cache ("injective:orderbook:" ++ marketId) now with
  | (some v, cache1) => (.ok v, { st with cache := cache1 })
  | (none, cache1) =>
    let st := { st with cache := cache1 }
    match tryEndpoints cfg behavior "orderbook" ("/" ++ marketId) now st with
    | (.error msg, st1) => (.error s!"Failed to fetch orderbook: {msg}", st1)
    | (.ok r, st1) =>
      let result := CachedValue.orderbook (parseOrderbook r)
      (.ok result,
       { st1 with cache := (cacheSet st1.cache ("injective:orderbook:" ++ marketId) result
          cfg.cacheTtlMs now) })

/-- getRecentTrades (lines 557-593), decoding and trade normalization
abstracted into `parseTrades`. -/
def getRecentTrades (cfg : Config) (behavior : String → FetchResult)
    (parseTrades : Response → List Trade) (marketId : String) (limit : ℕ)
    (now : Int) (st : SvcState) : Except String CachedValue × SvcState :=
  match cacheGet st.cache s!"injective:trades:{marketId}:{limit}" now with
  | (some v, cache1) => (.ok v, { st with cache := cache1 })
  | (none, cache1) =>
    let st := { st with cache := cache1 }
    match tryEndpoints cfg behavior "trades" s!"/{marketId}?limit={limit}" now st with
    | (.error msg, st1) => (.error s!"Failed to fetch trades: {msg}", st1)
    | (.ok r, st1) =>
      let result := CachedValue.trades (parseTrades r)
      (.ok result,
       { st1 with cache := (cacheSet st1.cache s!"injective:trades:{marketId}:{limit}" result
          cfg.cacheTtlMs now) })

/-- Concrete behaviour for the fallback evidence: the first markets variant
answers HTTP 500, every other URL answers HTTP 200. -/
def c1Behavior : String → FetchResult := fun url =>
  if url = "https://api.example/api/exchange/v1/markets" then
    .resp ⟨500, "Internal Server Error"⟩
  else .resp ⟨200, "OK"⟩

/-- Configuration used by the concrete evidence theorems. -/
def c1Config : Config := ⟨"https://api.example", 10000, 5000, 60, true⟩

/-! ## Theorems -/

theorem clamp01_nonneg (x : ℝ) : 0 ≤ clamp x 0 1 := by
  unfold clamp
  exact le_min zero_le_one (le_max_left 0 x)

theorem clamp01_le_one (x : ℝ) : clamp x 0 1 ≤ 1 := by
  unfold clamp
  exact min_le_left 1 _

theorem round_mem_score_range (x : ℝ) (h0 : 0 ≤ x) (h1 : x ≤ 100) :
    0 ≤ round x ∧ round x ≤ 100 := by
  rw [round_eq]
  constructor
  · exact Int.le_floor.mpr (by push_cast; linarith)
  · have h : (⌊x + 1 / 2⌋ : ℤ) < 101 := Int.floor_lt.mpr (by push_cast; linarith)
    omega

/-- C10: a zero best-bid or best-ask price on a non-empty side makes
computeSpreadBps, computeDepthAtBps and computeOrderbookImbalance all return
0, exactly as if that side were empty (the JS falsy guard treats a 0 top
price like an absent one). -/
theorem zero_top_price_treated_absent (ob : Orderbook) (bps : ℝ)
    (h : ob.bids.head?.map Prod.fst = some 0 ∨ ob.asks.head?.map Prod.fst = some 0) :
    computeSpreadBps ob = 0 ∧ computeDepthAtBps ob bps = 0 ∧
    computeOrderbookImbalance ob bps = 0 := by
  refine ⟨?_, ?_, ?_⟩ <;>
  · cases hb : ob.bids.head? <;> cases ha : ob.asks.head? <;>
      simp only [computeSpreadBps, computeDepthAtBps, computeOrderbookImbalance, hb, ha] <;>
      rcases h with h | h <;> simp_all

/-- C10 witness: a book whose bid side is non-empty with top price 0. -/
theorem zero_top_price_treated_absent_witness :
    computeSpreadBps ⟨[((0 : ℝ), 5)], [((3 : ℝ), 1)]⟩ = 0 ∧
    computeDepthAtBps ⟨[((0 : ℝ), 5)], [((3 : ℝ), 1)]⟩ 25 = 0 ∧
    computeOrderbookImbalance ⟨[((0 : ℝ), 5)], [((3 : ℝ), 1)]⟩ 25 = 0 :=
  zero_top_price_treated_absent ⟨[((0 : ℝ), 5)], [((3 : ℝ), 1)]⟩ 25 (by simp)

/-- C5 counterexample: with non-negative price levels and a non-empty top of
book, a crossed book (best bid 2 above best ask 1) yields a negative spread,
and a zero best bid with ask 5 yields spread 0 although bid and ask differ. -/
theorem computeSpreadBps_claim_counterexample :
    computeSpreadBps ⟨[((2 : ℝ), 1)], [((1 : ℝ), 1)]⟩ < 0 ∧
    (computeSpreadBps ⟨[((0 : ℝ), 1)], [((5 : ℝ), 1)]⟩ = 0 ∧ (0 : ℝ) ≠ 5) := by
  refine ⟨?_, ?_, by norm_num⟩
  · simp only [computeSpreadBps, List.head?]
    norm_num
  · simp only [computeSpreadBps, List.head?]
    norm_num

/-- C5 (amended): for a book whose best bid and best ask are both present
with positive prices and best bid at most best ask, computeSpreadBps is
non-negative and is 0 exactly when best bid equals best ask.  (As stated the
claim fails: a crossed book gives a negative spread, and a zero top price
gives 0 with bid and ask distinct.) -/
theorem computeSpreadBps_spec (ob : Orderbook) (pb pa : OrderbookLevel)
    (hb : ob.bids.head? = some pb) (ha : ob.asks.head? = some pa)
    (hbb : 0 < pb.1) (haa : 0 < pa.1) (hle : pb.1 ≤ pa.1) :
    0 ≤ computeSpreadBps ob ∧ (computeSpreadBps ob = 0 ↔ pb.1 = pa.1) := by
  have hmid : 0 < (pb.1 + pa.1) / 2 := by linarith
  have hguard : ¬(pb.1 = 0 ∨ pa.1 = 0) := by
    push_neg
    exact ⟨ne_of_gt hbb, ne_of_gt haa⟩
  simp only [computeSpreadBps, hb, ha, if_neg hguard]
  constructor
  · have : 0 ≤ (pa.1 - pb.1) / ((pb.1 + pa.1) / 2) :=
      div_nonneg (by linarith) (le_of_lt hmid)
    linarith [mul_nonneg this (by norm_num : (0 : ℝ) ≤ 10000)]
  · rw [mul_eq_zero, div_eq_zero_iff]
    constructor
    · rintro ((h | h) | h)
      · linarith
      · exact absurd h (ne_of_gt hmid)
      · norm_num at h
    · intro h
      left; left; linarith

/-- C5 witness: an uncrossed book with positive top prices. -/
theorem computeSpreadBps_spec_witness :
    0 ≤ computeSpreadBps ⟨[((100 : ℝ), 5)], [((101 : ℝ), 5)]⟩ ∧
    (computeSpreadBps ⟨[((100 : ℝ), 5)], [((101 : ℝ), 5)]⟩ = 0 ↔ (100 : ℝ) = 101) :=
  computeSpreadBps_spec ⟨[((100 : ℝ), 5)], [((101 : ℝ), 5)]⟩ (100, 5) (101, 5)
    rfl rfl (by norm_num) (by norm_num) (by norm_num)

theorem lookup_updateAssoc_self {β : Type} (m : List (String × β)) (k : String)
    (v : β) : (updateAssoc m k v).lookup k = some v := by
  simp [updateAssoc, List.lookup]

theorem cacheGet_hit {α : Type} (store : List (String × CacheEntry α))
    (key : String) (now : Int) (v : α)
    (h : (cacheGet store key now).1 = some v) :
    cacheGet store key now = (some v, store) := by
  unfold cacheGet at h ⊢
  cases hl : store.lookup key with
  | none => simp [hl] at h
  | some entry =>
    simp only [hl] at h ⊢
    split at h
    · simp at h
    · simp_all

/-- C3 counterexample: a value set at time 0 with TTL 5 is still a hit when
read exactly at the expiry instant 5, where the claim requires a miss. -/
theorem cacheGet_hit_at_exact_expiry :
    (cacheGet (cacheSet ([] : List (String × CacheEntry ℕ)) "k" 42 5 0) "k" 5).1
      = some 42 := by
  decide

/-- C3 (amended): cacheGet misses exactly when the key is absent or the
stored entry expires strictly before the current time; an expired-entry miss
deletes the entry; a value set with TTL `ttl` at time `t` is still a hit at
any time up to and including `t + ttl` and is a miss strictly afterwards.
(As stated the claim fails at the exact expiry instant, where the code still
returns the value.) -/
theorem cacheGet_spec {α : Type} (store : List (String × CacheEntry α))
    (key : String) (now1 now2 now3 t ttl : Int) (v : α) (entry : CacheEntry α)
    (hentry : store.lookup key = some entry) (hexp : entry.expiresAt < now3)
    (h1 : now1 ≤ t + ttl) (h2 : t + ttl < now2) :
    (∀ (s : List (String × CacheEntry α)) (n : Int),
      (cacheGet s key n).1 = none ↔
        s.lookup key = none ∨ ∃ e, s.lookup key = some e ∧ e.expiresAt < n) ∧
    (cacheGet store key now3).1 = none ∧
    (cacheGet store key now3).2 = (store.filter fun p => p.1 ≠ key) ∧
    (cacheGet (cacheSet store key v ttl t) key now1).1 = some v ∧
    (cacheGet (cacheSet store key v ttl t) key now2).1 = none := by
  have hmiss : ∀ (s : List (String × CacheEntry α)) (n : Int),
      (cacheGet s key n).1 = none ↔
        s.lookup key = none ∨ ∃ e, s.lookup key = some e ∧ e.expiresAt < n := by
    intro s n
    unfold cacheGet
    cases hl : s.lookup key with
    | none => simp [hl]
    | some e =>
      simp only [hl]
      split
      · simp_all
      · simp_all
  have hset : (cacheSet store key v ttl t).lookup key = some ⟨v, t + ttl⟩ :=
    lookup_updateAssoc_self store key ⟨v, t + ttl⟩
  refine ⟨hmiss, ?_, ?_, ?_, ?_⟩
  · unfold cacheGet
    simp [hentry, hexp]
  · unfold cacheGet
    simp [hentry, hexp]
  · unfold cacheGet
    simp [hset, not_lt.mpr h1]
  · unfold cacheGet
    simp [hset, h2]

/-- C3 witness: a store with an entry expired at time 10, and a fresh write
with TTL 5 at time 0 read at times 5 and 6. -/
theorem cacheGet_spec_witness :
    (∀ (s : List (String × CacheEntry ℕ)) (n : Int),
      (cacheGet s "k" n).1 = none ↔
        s.lookup "k" = none ∨ ∃ e, s.lookup "k" = some e ∧ e.expiresAt < n) ∧
    (cacheGet [("k", (⟨7, 3⟩ : CacheEntry ℕ))] "k" 10).1 = none ∧
    (cacheGet [("k", (⟨7, 3⟩ : CacheEntry ℕ))] "k" 10).2 =
      ([("k", (⟨7, 3⟩ : CacheEntry ℕ))].filter fun p => p.1 ≠ "k") ∧
    (cacheGet (cacheSet [("k", (⟨7, 3⟩ : CacheEntry ℕ))] "k" 9 5 0) "k" 5).1 = some 9 ∧
    (cacheGet (cacheSet [("k", (⟨7, 3⟩ : CacheEntry ℕ))] "k" 9 5 0) "k" 6).1 = none :=
  cacheGet_spec [("k", (⟨7, 3⟩ : CacheEntry ℕ))] "k" 5 6 10 0 5 9 ⟨7, 3⟩
    (by decide) (by decide) (by decide) (by decide)

theorem filter_replicate_true {α : Type} (p : α → Bool) (n : ℕ) (a : α)
    (h : p a = true) : (List.replicate n a).filter p = List.replicate n a := by
  induction n with
  | zero => rfl
  | succ n ih => simp [List.replicate_succ, List.filter_cons, h, ih]

theorem filter_replicate_false {α : Type} (p : α → Bool) (n : ℕ) (a : α)
    (h : p a = false) : (List.replicate n a).filter p = [] := by
  induction n with
  | zero => rfl
  | succ n ih => simp [List.replicate_succ, List.filter_cons, h, ih]

theorem checkRateLimit_eq (rate : RateMap) (endpoint : String) (now : Int)
    (limit : ℕ) :
    checkRateLimit rate endpoint now limit =
      if limit ≤ (recentOf rate endpoint now).length then
        .error (rateLimitMsg endpoint limit)
      else .ok (updateAssoc
        (if (rate.lookup endpoint).isNone then updateAssoc rate endpoint [] else rate)
        endpoint (recentOf rate endpoint now ++ [now])) := by
  unfold checkRateLimit recentOf
  cases hl : rate.lookup endpoint with
  | none => simp [hl, lookup_updateAssoc_self]
  | some ts => simp [hl]

theorem repeatCalls_replicate (endpoint : String) (now : Int) (limit : ℕ) :
    ∀ (k j : ℕ), j + k ≤ limit →
      repeatCalls k [(endpoint, List.replicate j now)] endpoint now limit =
        .ok [(endpoint, List.replicate (j + k) now)] := by
  intro k
  induction k with
  | zero =>
    intro j h
    simp [repeatCalls]
  | succ k ih =>
    intro j h
    have hlk : ([(endpoint, List.replicate j now)] : RateMap).lookup endpoint
        = some (List.replicate j now) := by simp [List.lookup]
    have hrec : recentOf [(endpoint, List.replicate j now)] endpoint now
        = List.replicate j now := by
      rw [recentOf, hlk]
      exact filter_replicate_true _ j now (by simp only [decide_eq_true_eq]; omega)
    have hcrl : checkRateLimit [(endpoint, List.replicate j now)] endpoint now limit
        = .ok [(endpoint, List.replicate (j + 1) now)] := by
      rw [checkRateLimit_eq, hrec, if_neg (by simp only [List.length_replicate]; omega)]
      rw [hlk]
      simp [updateAssoc, ← List.replicate_succ']
    rw [repeatCalls, hcrl]
    rw [show j + (k + 1) = (j + 1) + k by omega]
    exact ih (j + 1) (by omega)

theorem repeatCalls_ok_shift (k : ℕ) :
    ∀ (j : ℕ) (st st1 : RateMap) (endpoint : String) (now : Int) (limit : ℕ),
      repeatCalls k st endpoint now limit = .ok st1 →
      repeatCalls (k + j) st endpoint now limit =
        repeatCalls j st1 endpoint now limit := by
  induction k with
  | zero =>
    intro j st st1 endpoint now limit h
    simp [repeatCalls] at h
    subst h
    simp
  | succ k ih =>
    intro j st st1 endpoint now limit h
    rw [show k + 1 + j = (k + j) + 1 by omega]
    rw [repeatCalls] at h ⊢
    cases hc : checkRateLimit st endpoint now limit with
    | error e =>
      rw [hc] at h
      dsimp only at h
      exact absurd h (by simp)
    | ok st2 =>
      rw [hc] at h
      dsimp only at h ⊢
      exact ih j st2 st1 endpoint now limit h

/-- C2: the rate-limit check fails with the rate-limit error exactly when the
timestamps strictly inside the trailing 60-second window already reach the
budget, and otherwise records `now` on top of the pruned window; issuing
exactly the budget of calls from an empty tracker succeeds, the next call in
the same window fails, and 60 seconds later capacity is available again. -/
theorem checkRateLimit_spec (rate1 rate2 : RateMap) (endpoint : String)
    (now later : Int) (limit : ℕ)
    (hover : limit ≤ (recentOf rate1 endpoint now).length)
    (hunder : (recentOf rate2 endpoint now).length < limit)
    (hpos : 0 < limit) (hlater : now + 60 * 1000 ≤ later) :
    checkRateLimit rate1 endpoint now limit = .error (rateLimitMsg endpoint limit) ∧
    (∃ r, checkRateLimit rate2 endpoint now limit = .ok r ∧
      r.lookup endpoint = some (recentOf rate2 endpoint now ++ [now])) ∧
    (∃ r, repeatCalls limit [] endpoint now limit = .ok r ∧
      r.lookup endpoint = some (List.replicate limit now)) ∧
    repeatCalls (limit + 1) [] endpoint now limit =
      .error (rateLimitMsg endpoint limit) ∧
    (∃ r, checkRateLimit [(endpoint, List.replicate limit now)] endpoint later limit
      = .ok r) := by
  have hfirst : checkRateLimit [] endpoint now limit = .ok [(endpoint, [now])] := by
    rw [checkRateLimit_eq]
    have h0 : recentOf [] endpoint now = [] := by simp [recentOf, List.lookup]
    rw [h0, if_neg (by simp only [List.length_nil]; omega)]
    simp [List.lookup, updateAssoc]
  have hfull : repeatCalls limit [] endpoint now limit =
      .ok [(endpoint, List.replicate limit now)] := by
    obtain ⟨m, rfl⟩ := Nat.exists_eq_succ_of_ne_zero (Nat.pos_iff_ne_zero.mp hpos)
    rw [repeatCalls, hfirst]
    have h1m := repeatCalls_replicate endpoint now (m + 1) m 1 (by omega)
    rw [show 1 + m = m + 1 from Nat.add_comm 1 m] at h1m
    simpa using h1m
  have hlkfull : ([(endpoint, List.replicate limit now)] : RateMap).lookup endpoint
      = some (List.replicate limit now) := by simp [List.lookup]
  have hrecfull : recentOf [(endpoint, List.replicate limit now)] endpoint now
      = List.replicate limit now := by
    rw [recentOf, hlkfull, Option.getD_some]
    exact filter_replicate_true _ limit now (by simp only [decide_eq_true_eq]; omega)
  refine ⟨?_, ?_, ?_, ?_, ?_⟩
  · rw [checkRateLimit_eq, if_pos hover]
  · rw [checkRateLimit_eq, if_neg (not_le.mpr hunder)]
    exact ⟨_, rfl, lookup_updateAssoc_self _ _ _⟩
  · exact ⟨_, hfull, by simp [List.lookup]⟩
  · rw [repeatCalls_ok_shift limit 1 [] _ endpoint now limit hfull]
    rw [repeatCalls, checkRateLimit_eq, hrecfull,
      if_pos (by simp only [List.length_replicate]; omega)]
  · rw [checkRateLimit_eq]
    have hpred : (decide (later - 60 * 1000 < now)) = false := by
      simp only [decide_eq_false_iff_not]
      omega
    have hrec2 : recentOf [(endpoint, List.replicate limit now)] endpoint later = [] := by
      rw [recentOf, hlkfull, Option.getD_some]
      exact filter_replicate_false _ limit now hpred
    rw [hrec2, if_neg (by simp only [List.length_nil]; omega)]
    exact ⟨_, rfl⟩

/-- C2 witness: endpoint "markets" with budget 1, a tracker already holding a
call at time 0, an empty tracker, and a read 60 seconds later. -/
theorem checkRateLimit_spec_witness :
    checkRateLimit [("markets", [(0 : Int)])] "markets" 0 1 =
      .error (rateLimitMsg "markets" 1) ∧
    (∃ r, checkRateLimit [] "markets" 0 1 = .ok r ∧
      r.lookup "markets" = some (recentOf [] "markets" 0 ++ [0])) ∧
    (∃ r, repeatCalls 1 [] "markets" 0 1 = .ok r ∧
      r.lookup "markets" = some (List.replicate 1 (0 : Int))) ∧
    repeatCalls 2 [] "markets" 0 1 = .error (rateLimitMsg "markets" 1) ∧
    (∃ r, checkRateLimit [("markets", List.replicate 1 (0 : Int))] "markets" 60000 1
      = .ok r) :=
  checkRateLimit_spec [("markets", [(0 : Int)])] [] "markets" 0 60000 1
    (by decide) (by decide) (by decide) (by decide)

theorem stdDev_nil : stdDev [] = 0 := by simp [stdDev]

theorem stdDev_singleton (r : ℝ) : stdDev [r] = 0 := by
  simp [stdDev, mean]

theorem stdDev_pair_opp (a : ℝ) (ha : 0 ≤ a) : stdDev [a, -a] = a := by
  have hmean : mean [a, -a] = 0 := by
    simp [mean]
  rw [stdDev, if_neg (by simp)]
  simp only [hmean, List.map]
  have h2 : mean [(a - 0) ^ 2, (-a - 0) ^ 2] = a ^ 2 := by
    rw [mean, if_neg (by simp)]
    simp only [List.sum_cons, List.sum_nil, List.length_cons, List.length_nil]
    push_cast
    ring
  rw [h2, Real.sqrt_sq ha]

theorem logReturns_121 : logReturns [(1 : ℝ), 2, 1] = [Real.log 2, -Real.log 2] := by
  rw [logReturns, if_neg (by norm_num)]
  norm_num [List.zip, List.zipWith, List.filterMap]
  rw [one_div, Real.log_inv]

theorem logReturns_121m :
    logReturns [(1 : ℝ), 2, 1, -1] = [Real.log 2, -Real.log 2] := by
  rw [logReturns, if_neg (by norm_num)]
  norm_num [List.zip, List.zipWith, List.filterMap]
  rw [one_div, Real.log_inv]

theorem realizedVol_121 : computeRealizedVol [(1 : ℝ), 2, 1] = Real.log 2 := by
  rw [computeRealizedVol, logReturns_121]
  exact stdDev_pair_opp _ (Real.log_nonneg one_le_two)

theorem realizedVol_121m :
    computeRealizedVol [(1 : ℝ), 2, 1, -1] = Real.log 2 := by
  rw [computeRealizedVol, logReturns_121m]
  exact stdDev_pair_opp _ (Real.log_nonneg one_le_two)

/-- C4 counterexample: the price sequence `[1, 2, 1, -1]` contains a
non-positive price, yet computeRealizedVol is `log 2`, not 0: the skipped
pair leaves two distinct usable log-returns. -/
theorem computeRealizedVol_counterexample :
    ((-1 : ℝ) ∈ [(1 : ℝ), 2, 1, -1] ∧ (-1 : ℝ) ≤ 0) ∧
    computeRealizedVol [(1 : ℝ), 2, 1, -1] ≠ 0 := by
  refine ⟨⟨by simp, by norm_num⟩, ?_⟩
  rw [realizedVol_121m]
  exact ne_of_gt (Real.log_pos one_lt_two)

/-- C4 (amended): computeRealizedVol is 0 for every sequence of fewer than 2
prices, and more generally whenever at most one usable log-return remains
after skipping adjacent pairs with a non-positive price.  (As stated the
claim fails: a sequence containing a non-positive price can still produce
two usable, distinct log-returns and hence a nonzero volatility.) -/
theorem computeRealizedVol_degenerate (prices : List ℝ)
    (h : prices.length < 2 ∨ (logReturns prices).length ≤ 1) :
    computeRealizedVol prices = 0 := by
  rcases h with h | h
  · rw [computeRealizedVol, logReturns, if_pos h, stdDev_nil]
  · have h2 : logReturns prices = [] ∨ ∃ r, logReturns prices = [r] := by
      cases hl : logReturns prices with
      | nil => exact Or.inl rfl
      | cons r t =>
        cases t with
        | nil => exact Or.inr ⟨r, rfl⟩
        | cons b t2 =>
          rw [hl] at h
          simp at h
    rcases h2 with h2 | ⟨r, h2⟩
    · rw [computeRealizedVol, h2, stdDev_nil]
    · rw [computeRealizedVol, h2]
      exact stdDev_singleton r

/-- C4 witness: the single-element price sequence `[5]`. -/
theorem computeRealizedVol_degenerate_witness :
    computeRealizedVol [(5 : ℝ)] = 0 :=
  computeRealizedVol_degenerate [(5 : ℝ)] (Or.inl (by norm_num))

theorem roundTo_125 : roundTo (1.25 : ℝ) 4 = 1.25 := by
  rw [roundTo]
  rw [show ((1.25 : ℝ) * 10 ^ (4 : ℕ)) = ((12500 : ℤ) : ℝ) by norm_num]
  rw [round_intCast]
  norm_num

theorem roundTo_one : roundTo (1 : ℝ) 4 = 1 := by
  rw [roundTo]
  rw [show ((1 : ℝ) * 10 ^ (4 : ℕ)) = ((10000 : ℤ) : ℝ) by norm_num]
  rw [round_intCast]
  norm_num

/-- C6: with no supplied baseline and positive realized volatility, the
baseline is `0.8 x realized` and the reported trend is 1.25; whenever the
selected baseline is 0 (zero realized with no baseline, or a supplied zero
baseline), the reported trend is 1 rather than a division fault. -/
theorem volatility_trend_spec (tr1 tr2 : List Trade) (b : Option ℝ)
    (h1 : 0 < computeRealizedVol (tr1.map Trade.price))
    (h2 : volBaseline (computeRealizedVol (tr2.map Trade.price)) b = 0) :
    volBaseline (computeRealizedVol (tr1.map Trade.price)) none
      = 0.8 * computeRealizedVol (tr1.map Trade.price) ∧
    (computeVolatilityMetrics tr1 none).trend = 1.25 ∧
    (computeVolatilityMetrics tr2 b).trend = 1 := by
  have hb : volBaseline (computeRealizedVol (tr1.map Trade.price)) none
      = 0.8 * computeRealizedVol (tr1.map Trade.price) := by
    rw [volBaseline, Option.getD_none, if_pos h1]
    ring
  have htrend : volTrend (computeRealizedVol (tr1.map Trade.price))
      (volBaseline (computeRealizedVol (tr1.map Trade.price)) none) = 1.25 := by
    rw [hb, volTrend, if_pos (by linarith)]
    rw [div_eq_iff (by linarith : (0.8 : ℝ) * computeRealizedVol (tr1.map Trade.price) ≠ 0)]
    ring
  refine ⟨hb, ?_, ?_⟩
  · show roundTo (volTrend (computeRealizedVol (tr1.map Trade.price))
      (volBaseline (computeRealizedVol (tr1.map Trade.price)) none)) 4 = 1.25
    rw [htrend, roundTo_125]
  · show roundTo (volTrend (computeRealizedVol (tr2.map Trade.price))
      (volBaseline (computeRealizedVol (tr2.map Trade.price)) b)) 4 = 1
    rw [h2, volTrend, if_neg (lt_irrefl 0), roundTo_one]

/-- C6 witness: trades with prices `[1, 2, 1]` (positive realized
volatility) against an empty trade list with no supplied baseline. -/
theorem volatility_trend_spec_witness :
    volBaseline (computeRealizedVol (List.map Trade.price
      [⟨(1 : ℝ), 1, "a"⟩, ⟨2, 1, "b"⟩, ⟨1, 1, "c"⟩])) none
      = 0.8 * computeRealizedVol (List.map Trade.price
        [⟨(1 : ℝ), 1, "a"⟩, ⟨2, 1, "b"⟩, ⟨1, 1, "c"⟩]) ∧
    (computeVolatilityMetrics [⟨(1 : ℝ), 1, "a"⟩, ⟨2, 1, "b"⟩, ⟨1, 1, "c"⟩] none).trend
      = 1.25 ∧
    (computeVolatilityMetrics [] none).trend = 1 :=
  volatility_trend_spec [⟨(1 : ℝ), 1, "a"⟩, ⟨2, 1, "b"⟩, ⟨1, 1, "c"⟩] [] none
    (by
      rw [show List.map Trade.price [⟨(1 : ℝ), 1, "a"⟩, ⟨2, 1, "b"⟩, ⟨1, 1, "c"⟩]
          = [(1 : ℝ), 2, 1] from rfl, realizedVol_121]
      exact Real.log_pos one_lt_two)
    (by norm_num [volBaseline, computeRealizedVol, logReturns, stdDev])

/-- C7: the liquidity, volatility and activity scores are integers in
`[0, 100]` for arbitrary inputs, and the health composite
`round(0.45 l + 0.35 v + 0.2 a)` is in `[0, 100]` whenever its three score
inputs are. -/
theorem scores_in_range (ob : Orderbook) (trades : List Trade) (b : Option ℝ)
    (L : LiquidityMetrics) (V : VolatilityMetrics) (A : ActivityMetrics)
    (hL0 : 0 ≤ L.score) (hL1 : L.score ≤ 100) (hV0 : 0 ≤ V.score)
    (hV1 : V.score ≤ 100) (hA0 : 0 ≤ A.score) (hA1 : A.score ≤ 100) :
    (0 ≤ (computeLiquidityMetrics ob trades).score ∧
      (computeLiquidityMetrics ob trades).score ≤ 100) ∧
    (0 ≤ (computeVolatilityMetrics trades b).score ∧
      (computeVolatilityMetrics trades b).score ≤ 100) ∧
    (0 ≤ (computeActivityMetrics trades).score ∧
      (computeActivityMetrics trades).score ≤ 100) ∧
    (0 ≤ (computeHealthMetrics L V A).score ∧
      (computeHealthMetrics L V A).score ≤ 100) := by
  have hscore : ∀ x : ℝ,
      0 ≤ round (100 * clamp x 0 1) ∧ round (100 * clamp x 0 1) ≤ 100 := by
    intro x
    refine round_mem_score_range _ ?_ ?_
    · have := clamp01_nonneg x
      linarith
    · have := clamp01_le_one x
      linarith
  refine ⟨hscore _, hscore _, hscore _, ?_⟩
  have l0 : (0 : ℝ) ≤ (L.score : ℝ) := by exact_mod_cast hL0
  have l1 : (L.score : ℝ) ≤ 100 := by exact_mod_cast hL1
  have v0 : (0 : ℝ) ≤ (V.score : ℝ) := by exact_mod_cast hV0
  have v1 : (V.score : ℝ) ≤ 100 := by exact_mod_cast hV1
  have a0 : (0 : ℝ) ≤ (A.score : ℝ) := by exact_mod_cast hA0
  have a1 : (A.score : ℝ) ≤ 100 := by exact_mod_cast hA1
  exact round_mem_score_range _ (by linarith) (by linarith)

/-- C7 witness: the empty book and trade list, with concrete score inputs 50
for the health composite. -/
theorem scores_in_range_witness :
    (0 ≤ (computeLiquidityMetrics ⟨[], []⟩ []).score ∧
      (computeLiquidityMetrics ⟨[], []⟩ []).score ≤ 100) ∧
    (0 ≤ (computeVolatilityMetrics [] none).score ∧
      (computeVolatilityMetrics [] none).score ≤ 100) ∧
    (0 ≤ (computeActivityMetrics []).score ∧
      (computeActivityMetrics []).score ≤ 100) ∧
    (0 ≤ (computeHealthMetrics ⟨0, 0, 0, 0, 50⟩ ⟨0, 0, 0, 50⟩ ⟨0, 0, 0, 50⟩).score ∧
      (computeHealthMetrics ⟨0, 0, 0, 0, 50⟩ ⟨0, 0, 0, 50⟩ ⟨0, 0, 0, 50⟩).score ≤ 100) :=
  scores_in_range ⟨[], []⟩ [] none ⟨0, 0, 0, 0, 50⟩ ⟨0, 0, 0, 50⟩ ⟨0, 0, 0, 50⟩
    (by decide) (by decide) (by decide) (by decide) (by decide) (by decide)

/-- C8: buildSignals never returns the empty list, and equals the signals of
the rules that fire taken in the fixed rule order, with exactly the single
info signal when no rule fires. -/
theorem buildSignals_spec (m : MarketSummaryMetrics) :
    buildSignals m ≠ [] ∧
    buildSignals m =
      (if firedSignals m = [] then [healthOkSignal] else firedSignals m) := by
  by_cases h1 : 25 < m.liquidity.spread_bps <;>
  by_cases h2 : m.liquidity.depth_25bps < 20000 <;>
  by_cases h3 : 1.8 < m.volatility.trend <;>
  by_cases h4 : m.activity.score < 30 <;>
  by_cases h5 : m.health.score < 40 <;>
  simp [buildSignals, firedSignals, signalRules, healthOkSignal, h1, h2, h3, h4, h5]

/-- C9: when the cache holds an unexpired entry for the computed key, each of
getMarkets, getOrderbook and getRecentTrades returns that value and leaves
the whole service state unchanged: no rate-limit check is recorded, no call
metric is appended, and no network call is issued. -/
theorem cacheHit_frame (cfg : Config) (behavior : String → FetchResult)
    (pm : Response → List MarketInfo) (po : Response → Orderbook)
    (pt : Response → List Trade) (marketId : String) (limit : ℕ) (now : Int)
    (st : SvcState) (vm vo vt : CachedValue)
    (h1 : (cacheGet st.cache "injective:markets" now).1 = some vm)
    (h2 : (cacheGet st.cache ("injective:orderbook:" ++ marketId) now).1 = some vo)
    (h3 : (cacheGet st.cache s!"injective:trades:{marketId}:{limit}" now).1 = some vt) :
    getMarkets cfg behavior pm now st = (.ok vm, st) ∧
    getOrderbook cfg behavior po marketId now st = (.ok vo, st) ∧
    getRecentTrades cfg behavior pt marketId limit now st = (.ok vt, st) := by
  have e1 := cacheGet_hit _ _ _ _ h1
  have e2 := cacheGet_hit _ _ _ _ h2
  have e3 := cacheGet_hit _ _ _ _ h3
  refine ⟨?_, ?_, ?_⟩
  · unfold getMarkets
    rw [e1]
  · unfold getOrderbook
    rw [e2]
  · unfold getRecentTrades
    rw [e3]

/-- C9 witness: a state whose cache holds unexpired entries for all three
keys of market id "m" with limit 120. -/
theorem cacheHit_frame_witness :
    getMarkets c1Config (fun _ => .abortError) (fun _ => []) 0
      ⟨[("injective:markets", ⟨.markets [], 10⟩),
        ("injective:orderbook:m", ⟨.orderbook ⟨[], []⟩, 10⟩),
        ("injective:trades:m:120", ⟨.trades [], 10⟩)], [], [], []⟩ =
      (.ok (.markets []),
        ⟨[("injective:markets", ⟨.markets [], 10⟩),
          ("injective:orderbook:m", ⟨.orderbook ⟨[], []⟩, 10⟩),
          ("injective:trades:m:120", ⟨.trades [], 10⟩)], [], [], []⟩) ∧
    getOrderbook c1Config (fun _ => .abortError) (fun _ => ⟨[], []⟩) "m" 0
      ⟨[("injective:markets", ⟨.markets [], 10⟩),
        ("injective:orderbook:m", ⟨.orderbook ⟨[], []⟩, 10⟩),
        ("injective:trades:m:120", ⟨.trades [], 10⟩)], [], [], []⟩ =
      (.ok (.orderbook ⟨[], []⟩),
        ⟨[("injective:markets", ⟨.markets [], 10⟩),
          ("injective:orderbook:m", ⟨.orderbook ⟨[], []⟩, 10⟩),
          ("injective:trades:m:120", ⟨.trades [], 10⟩)], [], [], []⟩) ∧
    getRecentTrades c1Config (fun _ => .abortError) (fun _ => []) "m" 120 0
      ⟨[("injective:markets", ⟨.markets [], 10⟩),
        ("injective:orderbook:m", ⟨.orderbook ⟨[], []⟩, 10⟩),
        ("injective:trades:m:120", ⟨.trades [], 10⟩)], [], [], []⟩ =
      (.ok (.trades []),
        ⟨[("injective:markets", ⟨.markets [], 10⟩),
          ("injective:orderbook:m", ⟨.orderbook ⟨[], []⟩, 10⟩),
          ("injective:trades:m:120", ⟨.trades [], 10⟩)], [], [], []⟩) :=
  cacheHit_frame c1Config (fun _ => .abortError) (fun _ => []) (fun _ => ⟨[], []⟩)
    (fun _ => []) "m" 120 0
    ⟨[("injective:markets", ⟨.markets [], 10⟩),
      ("injective:orderbook:m", ⟨.orderbook ⟨[], []⟩, 10⟩),
      ("injective:trades:m:120", ⟨.trades [], 10⟩)], [], [], []⟩
    (.markets []) (.orderbook ⟨[], []⟩) (.trades [])
    rfl rfl rfl

/-- C1: evidence of the divergence.  With the first markets variant answering
HTTP 500 (a non-success, non-404 status) and the second answering HTTP 200,
tryEndpoints does not abort after the 500: it issues a second network call
and returns the second variant success, because the `API error` throw is
swallowed by the same loop's catch block, whose substring checks match
neither timeout, fetch, nor rate-limit messages. -/
theorem tryEndpoints_httpError_not_fatal :
    (tryEndpoints c1Config c1Behavior "markets" "" 0 ⟨[], [], [], []⟩).1
      = .ok ⟨200, "OK"⟩ ∧
    (tryEndpoints c1Config c1Behavior "markets" "" 0 ⟨[], [], [], []⟩).2.net
      = ["https://api.example/api/exchange/v1/markets",
         "https://api.example/markets"] := by
  exact ⟨rfl, rfl⟩

end IMI
